import Mathlib

/-!
Verification of the dictionary-unification and index-transposition core
(`cpp/src/arrow/array/dict_internal.cc`) against its specification.

The C++ core is embedded shallowly:
* the memo table (value interner) is a `List α` of values in first-seen order,
  a value's dense id being its first index in that list;
* `DictionaryUnifierImpl::Unify` becomes a pure state-passing function
  returning the new interner state together with a status;
* `DictionaryArray::Transpose` becomes a pure function on an explicit
  record of the source `ArrayData`, returning either a result array
  (whose buffers are tagged as reused-by-reference or freshly allocated),
  an error kind, or a marker for a read through a null bitmap pointer.
-/

namespace ArrowDict

/-- Error kinds of the statuses this core returns (`Status::Invalid`,
`Status::TypeError`, `Status::NotImplemented`). Messages are noted in
comments; the kind is the status code. -/
inductive ErrKind
  | invalid
  | typeError
  | notImplemented
deriving DecidableEq

/-- Logical value types, as far as this core observes them: `Unify` only
compares the incoming dictionary's type with the unifier's declared type
(`dictionary.type()->Equals(*value_type_)`), so an opaque tag suffices. -/
inductive ValType
  | utf8
  | int32V
  | otherV
deriving DecidableEq

/-- First index of `v` in the memo table, if present: the dense id the
interner has assigned to `v` (`MemoTableType` lookup semantics,
`arrow/util/hashing.h`, modelled from the spec contract in section 4.1:
dense 0-based ids in first-seen order, equal values collapse to one id). -/
def memoLookup [DecidableEq α] : List α → α → Option Nat
  | [], _ => none
  | x :: xs, v => if x = v then some 0 else (memoLookup xs v).map (· + 1)

/-- Modelled from the spec: `get_or_insert(value) -> id` of the value
interner (section 4.1) — returns the existing id on repeat insertion,
else assigns the next sequential id (the current size) and records the
value at the end. -/
def getOrInsert [DecidableEq α] (t : List α) (v : α) : Nat × List α :=
  match memoLookup t v with
  | some i => (i, t)
  | none => (t.length, t ++ [v])

/-- The loop bodies of `DictionaryUnifierImpl::Unify` (lines 71-73 and
76-79): feed each dictionary value through `GetOrInsert` in order,
collecting the returned ids. Both the map-producing and the map-free
branch of the C++ run this same insertion sequence. -/
def unifyLoop [DecidableEq α] : List α → List α → List α × List Nat
  | t, [] => (t, [])
  | t, v :: vs =>
    ((unifyLoop (getOrInsert t v).2 vs).1,
      (getOrInsert t v).1 :: (unifyLoop (getOrInsert t v).2 vs).2)

/-- State of a `DictionaryUnifierImpl`: the declared value type and the
memo table (values in id order). -/
structure UnifierState (α : Type) where
  valueType : ValType
  table : List α
deriving DecidableEq

/-- A dictionary array as `Unify` observes it: its logical type and its
values, `none` standing for a null entry. -/
structure InputDict (α : Type) where
  dtype : ValType
  values : List (Option α)
deriving DecidableEq

/-- `dictionary.null_count()` for the model dictionary. -/
def dictNullCount (d : InputDict α) : Nat := d.values.countP (·.isNone)

/-- `DictionaryUnifierImpl::Unify` (lines 57-82): rejects dictionaries
with nulls (`Status::Invalid`, "Cannot yet unify dictionaries with
nulls"), rejects a value type different from the unifier's
(`Status::Invalid`, "Dictionary type different from unifier"), and
otherwise runs every value through the memo table in order, returning
the id map when a map was requested (`out != nullptr`). The returned
state is the memo table as the call leaves it; both error returns happen
before the table is touched. -/
def Unify [DecidableEq α] (st : UnifierState α) (d : InputDict α) (wantMap : Bool) :
    UnifierState α × Except ErrKind (Option (List Nat)) :=
  if 0 < dictNullCount d then (st, .error .invalid)
  else if d.dtype ≠ st.valueType then (st, .error .invalid)
  else
    ({ st with table := (unifyLoop st.table (d.values.filterMap id)).1 },
      .ok (if wantMap then some (unifyLoop st.table (d.values.filterMap id)).2 else none))

/-- Index type ids this core dispatches on. `i8`-`i64` are the four
signed integer index types the code handles; `other1` is modelled from
the spec: it stands for any other fixed-width type reaching the
transposer's index-type dispatch (the spec's error clause for "index
width outside {8,16,32,64}" presupposes such types; a 1-bit boolean is
the concrete instance). -/
inductive IndexTypeId
  | i8
  | i16
  | i32
  | i64
  | other1
deriving DecidableEq

/-- `FixedWidthType::bit_width()` for the modelled index types. -/
def bitWidth : IndexTypeId → Nat
  | .i8 => 8
  | .i16 => 16
  | .i32 => 32
  | .i64 => 64
  | .other1 => 1

/-- Maximum value of the signed integer type of the given width
(`std::numeric_limits<intN_t>::max()`). -/
def signedMax (t : IndexTypeId) : Nat := 2 ^ (bitWidth t - 1) - 1

/-- Whether the transposer's width dispatch has a case for this index
type (lines 234-241: `Int8Type`, `Int16Type`, `Int32Type`, `Int64Type`;
anything else falls to the `default:` branches). -/
def supportedIndex : IndexTypeId → Bool
  | .i8 => true
  | .i16 => true
  | .i32 => true
  | .i64 => true
  | .other1 => false

/-- Index type selection of `DictionaryUnifierImpl::GetResult`
(lines 88-98): chained `dict_length <= numeric_limits<intN_t>::max()`
tests. -/
def selectIndexType (n : Nat) : IndexTypeId :=
  if n ≤ 127 then .i8
  else if n ≤ 32767 then .i16
  else if n ≤ 2147483647 then .i32
  else .i64

/-- The selection rule as the spec's sentence reads, for comparison with
the source's rule: the smallest type whose maximum value is at least
`n - 1`. -/
def specSelectIndexType (n : Nat) : IndexTypeId :=
  if n - 1 ≤ 127 then .i8
  else if n - 1 ≤ 32767 then .i16
  else if n - 1 ≤ 2147483647 then .i32
  else .i64

/-- `DictionaryUnifierImpl::GetResult` (lines 86-108), observable part:
the chosen index type and the dictionary materialized from the memo
table in id order (start offset 0). -/
def GetResult [DecidableEq α] (st : UnifierState α) : IndexTypeId × List α :=
  (selectIndexType st.table.length, st.table)

/-- The target type argument of `Transpose`: either a dictionary-family
type carrying an index type, or some non-dictionary type
(`type->id() != Type::DICTIONARY`). -/
inductive DTypeT
  | dict (index : IndexTypeId)
  | nonDict
deriving DecidableEq

/-- The source `ArrayData` of a `DictionaryArray`, as `Transpose` reads
it: index type of `dict_type_`, logical `length`, slice `offset`, the
physical null bitmap buffer `buffers[0]` (absent = null pointer), the
physical index values in `buffers[1]`, `null_count`, and the length of
the attached dictionary (`data_->dictionary->length()`). -/
structure DictArrayData where
  indexType : IndexTypeId
  length : Nat
  offset : Nat
  nullBitmap : Option (List Bool)
  indices : List Int
  nullCount : Nat
  dictLen : Nat
deriving DecidableEq

/-- A buffer of the produced array: either the source's buffer reused by
reference, or a freshly allocated buffer with the given contents. -/
inductive BufRef (β : Type)
  | reused
  | fresh (data : β)
deriving DecidableEq

/-- The produced `ArrayData` of `Transpose`. -/
structure TransposedArray where
  dtype : DTypeT
  length : Nat
  offset : Nat
  nullCount : Nat
  bitmap : BufRef (List Bool)
  indices : BufRef (List Int)
deriving DecidableEq

/-- Outcome of a `Transpose` call: a result array, an error status, or
`undef`, marking a read through a null bitmap pointer (the `CopyBitmap`
call dereferencing `null_bitmap_data_ == nullptr`). -/
inductive TransposeOutcome
  | ok (a : TransposedArray)
  | err (k : ErrKind)
  | undef
deriving DecidableEq

/-- `IsTrivialTransposition` (lines 149-157): every map entry below the
input dictionary size equals its position. An entry read beyond the
map's extent is modelled as `-1` (never equal to its position). -/
def isTrivialTransposition (m : List Int) (n : Nat) : Bool :=
  (List.range n).all fun i => m.getD i (-1) == (i : Int)

/-- `static_cast` of an integer value to the signed two's-complement
integer type of width `w`. -/
def castToWidth (w : Nat) (x : Int) : Int :=
  (x + 2 ^ (w - 1)) % 2 ^ w - 2 ^ (w - 1)

/-- `transpose_map[v]` for an index value `v` read from the source:
in-range reads return the map entry; an out-of-range read is undefined
in the C++ and modelled as `0`. -/
def mapAt (m : List Int) (v : Int) : Int :=
  if h : 0 ≤ v ∧ v.toNat < m.length then m.get ⟨v.toNat, h.2⟩ else 0

/-- Modelled from the spec: `internal::TransposeInts`
(`arrow/util/int_util`, outside this file) as called by
`TransposeDictIndices` (lines 159-171) — for every logical position, the
destination receives the transpose-mapped source value cast to the
output width; the source pointer is `in_data.GetValues<in_c_type>(1)`,
i.e. `buffers[1]` advanced by the slice offset (spec 4.4.3c: "read the
source index value at `i` (respecting the source's slice offset)"). -/
def transposeInts (outW : Nat) (src : List Int) (srcOff len : Nat) (tmap : List Int) :
    List Int :=
  (List.range len).map fun i => castToWidth outW (mapAt tmap (src.getD (srcOff + i) 0))

/-- Modelled from the spec: the external bit-copy utility
`CopyBitmap(pool, bitmap, offset, length)` (`arrow/util/bit_util`,
outside this file) — produces a buffer whose bit `j` is bit
`offset + j` of the source bitmap. Invoked on an absent bitmap (null
pointer) it reads out of bounds whenever at least one bit is copied;
this is the `none` outcome. -/
def copyBitmap (src : Option (List Bool)) (off len : Nat) : Option (List Bool) :=
  match src with
  | some bits => some ((List.range len).map fun j => bits.getD (off + j) false)
  | none => if len = 0 then some [] else none

/-- The null-bitmap handling of the general path (lines 205-212): a
non-zero slice offset forces a fresh re-aligned copy via `CopyBitmap`
(which dereferences `null_bitmap_data_` unconditionally); offset zero
reuses `buffers[0]` by reference. -/
def shiftedBitmap (src : DictArrayData) : Option (BufRef (List Bool)) :=
  if src.offset ≠ 0 then (copyBitmap src.nullBitmap src.offset src.length).map BufRef.fresh
  else some BufRef.reused

/-- The byte size `Transpose` passes to `AllocateBuffer` for the new
indices buffer (lines 201-203):
`data_->length * out_index_type.bit_width() * CHAR_BIT`.
(`AllocateBuffer`'s size argument is a byte count, as line 69's
`dictionary.length() * sizeof(int32_t)` in this same file shows.) -/
def transposeAllocBytes (len : Nat) (outT : IndexTypeId) : Nat :=
  len * bitWidth outT * 8

/-- `DictionaryArray::Transpose` (lines 173-244). In source order:
reject a non-dictionary target type with `Status::TypeError`; take the
buffer-reusing fast path when the index type ids are equal and the map
is a trivial transposition (lines 189-198, preserving length, offset and
null count); otherwise allocate a `transposeAllocBytes`-byte indices
buffer, shift or reuse the null bitmap (lines 205-212), and dispatch on
the (in, out) index type pair (lines 234-241), the `default:` branches
returning `Status::NotImplemented` ("unexpected index type"). The
general-path result is rebuilt at offset 0 with the source's length and
null count. -/
def Transpose (src : DictArrayData) (targetType : DTypeT) (tmap : List Int) :
    TransposeOutcome :=
  match targetType with
  | .nonDict => .err .typeError
  | .dict outT =>
    if src.indexType = outT ∧ isTrivialTransposition tmap src.dictLen = true then
      .ok ⟨targetType, src.length, src.offset, src.nullCount, .reused, .reused⟩
    else
      match shiftedBitmap src with
      | none => .undef
      | some bm =>
        if supportedIndex src.indexType && supportedIndex outT then
          .ok ⟨targetType, src.length, 0, src.nullCount, bm,
            .fresh (transposeInts (bitWidth outT) src.indices src.offset src.length tmap)⟩
        else .err .notImplemented

/-- Validity (non-nullness) of logical position `i` under a bitmap
buffer and a slice offset: an absent bitmap means all-valid, otherwise
bit `offset + i` decides. -/
def validAt (bitmap : Option (List Bool)) (off i : Nat) : Bool :=
  match bitmap with
  | none => true
  | some bits => bits.getD (off + i) false

/-- The bitmap buffer the produced array refers to: the source's
`buffers[0]` when reused, else the fresh buffer. -/
def outBitmap (src : DictArrayData) (a : TransposedArray) : Option (List Bool) :=
  match a.bitmap with
  | .reused => src.nullBitmap
  | .fresh b => some b

section MemoLemmas

variable {α : Type} [DecidableEq α]

/-- A value's id is unaffected by values recorded later. -/
lemma memoLookup_append_left {t : List α} {v : α} {i : Nat}
    (h : memoLookup t v = some i) (u : List α) :
    memoLookup (t ++ u) v = some i := by
  induction t generalizing i with
  | nil => simp [memoLookup] at h
  | cons x xs ih =>
    by_cases hx : x = v
    · simp [memoLookup, hx] at h ⊢
      exact h
    · simp [memoLookup, hx] at h ⊢
      obtain ⟨j, hj, hij⟩ := h
      exact ⟨j, ih hj, hij⟩

/-- Recording an unseen value at the end gives it the next id. -/
lemma memoLookup_append_self {t : List α} {v : α}
    (h : memoLookup t v = none) :
    memoLookup (t ++ [v]) v = some t.length := by
  induction t with
  | nil => simp [memoLookup]
  | cons x xs ih =>
    by_cases hx : x = v
    · simp [memoLookup, hx] at h
    · simp [memoLookup, hx] at h ⊢
      exact ih h

/-- After `getOrInsert`, the value's id in the table is the returned id. -/
lemma getOrInsert_lookup (t : List α) (v : α) :
    memoLookup (getOrInsert t v).2 v = some (getOrInsert t v).1 := by
  unfold getOrInsert
  cases h : memoLookup t v with
  | some i => simp [h]
  | none => simpa [h] using memoLookup_append_self h

/-- `getOrInsert` never disturbs an already-assigned id. -/
lemma getOrInsert_stable {t : List α} {w : α} {j : Nat}
    (h : memoLookup t w = some j) (v : α) :
    memoLookup (getOrInsert t v).2 w = some j := by
  unfold getOrInsert
  cases hv : memoLookup t v with
  | some i => simpa [hv] using h
  | none => simpa [hv] using memoLookup_append_left h [v]

/-- `getOrInsert` only ever appends to the table. -/
lemma getOrInsert_extends (t : List α) (v : α) :
    ∃ u, (getOrInsert t v).2 = t ++ u := by
  unfold getOrInsert
  cases hv : memoLookup t v with
  | some i => exact ⟨[], by simp [hv]⟩
  | none => exact ⟨[v], by simp [hv]⟩

/-- The unify loop never disturbs an already-assigned id. -/
lemma unifyLoop_stable {t : List α} {w : α} {j : Nat}
    (h : memoLookup t w = some j) (vs : List α) :
    memoLookup (unifyLoop t vs).1 w = some j := by
  induction vs generalizing t with
  | nil => simpa [unifyLoop] using h
  | cons v vs ih =>
    simpa [unifyLoop] using ih (getOrInsert_stable h v)

/-- The unify loop only ever appends to the table. -/
lemma unifyLoop_extends (t : List α) (vs : List α) :
    ∃ u, (unifyLoop t vs).1 = t ++ u := by
  induction vs generalizing t with
  | nil => exact ⟨[], by simp [unifyLoop]⟩
  | cons v vs ih =>
    obtain ⟨u1, hu1⟩ := getOrInsert_extends t v
    obtain ⟨u2, hu2⟩ := ih (getOrInsert t v).2
    rw [hu1, List.append_assoc] at hu2
    exact ⟨u1 ++ u2, by simp [unifyLoop, hu2, hu1]⟩

/-- The map produced by the loop has one entry per input value. -/
lemma unifyLoop_length (t : List α) (vs : List α) :
    (unifyLoop t vs).2.length = vs.length := by
  induction vs generalizing t with
  | nil => simp [unifyLoop]
  | cons v vs ih => simp [unifyLoop, ih]

/-- Each map entry is the final table's id for the value at that
position. -/
lemma unifyLoop_map_ids (t : List α) (vs : List α) (i : Nat)
    (hv : i < vs.length) (hm : i < (unifyLoop t vs).2.length) :
    memoLookup (unifyLoop t vs).1 (vs.get ⟨i, hv⟩) =
      some ((unifyLoop t vs).2.get ⟨i, hm⟩) := by
  induction vs generalizing t i with
  | nil => exact absurd hv (by simp)
  | cons v vs ih =>
    cases i with
    | zero =>
      simpa [unifyLoop] using unifyLoop_stable (getOrInsert_lookup t v) vs
    | succ k =>
      have hv' : k < vs.length := by simpa using hv
      have hm' : k < (unifyLoop (getOrInsert t v).2 vs).2.length := by
        simpa [unifyLoop_length] using hv'
      simpa [unifyLoop] using ih (getOrInsert t v).2 k hv' hm'

end MemoLemmas

section WidthLemmas

lemma signedMax_i8 : signedMax IndexTypeId.i8 = 127 := by decide

lemma signedMax_i16 : signedMax IndexTypeId.i16 = 32767 := by decide

lemma signedMax_i32 : signedMax IndexTypeId.i32 = 2147483647 := by decide

lemma signedMax_i64 : signedMax IndexTypeId.i64 = 9223372036854775807 := by
  norm_num [signedMax, bitWidth]

/-- The chosen index type can hold the size itself. -/
lemma selectIndexType_ge {n : Nat} (h : n ≤ signedMax IndexTypeId.i64) :
    n ≤ signedMax (selectIndexType n) := by
  rw [signedMax_i64] at h
  unfold selectIndexType
  split_ifs <;>
    simp only [signedMax_i8, signedMax_i16, signedMax_i32, signedMax_i64] <;> omega

/-- Among the four supported types, none narrower than the chosen one
can hold the size. -/
lemma selectIndexType_min {n : Nat} {t : IndexTypeId}
    (ht : supportedIndex t = true) (h : n ≤ signedMax t) :
    signedMax (selectIndexType n) ≤ signedMax t := by
  cases t with
  | other1 => exact absurd ht (by decide)
  | i8 =>
    rw [signedMax_i8] at h ⊢
    unfold selectIndexType
    split_ifs <;>
      simp only [signedMax_i8, signedMax_i16, signedMax_i32, signedMax_i64] <;> omega
  | i16 =>
    rw [signedMax_i16] at h ⊢
    unfold selectIndexType
    split_ifs <;>
      simp only [signedMax_i8, signedMax_i16, signedMax_i32, signedMax_i64] <;> omega
  | i32 =>
    rw [signedMax_i32] at h ⊢
    unfold selectIndexType
    split_ifs <;>
      simp only [signedMax_i8, signedMax_i16, signedMax_i32, signedMax_i64] <;> omega
  | i64 =>
    rw [signedMax_i64] at h ⊢
    unfold selectIndexType
    split_ifs <;>
      simp only [signedMax_i8, signedMax_i16, signedMax_i32, signedMax_i64] <;> omega

/-- The modelled index types are distinguished by their bit widths. -/
lemma bitWidth_inj {a b : IndexTypeId} (h : bitWidth a = bitWidth b) : a = b := by
  cases a <;> cases b <;> first | rfl | exact absurd h (by decide)

/-- The four handled index types are exactly the fixed widths
{8, 16, 32, 64}. -/
lemma supportedIndex_iff_width {t : IndexTypeId} :
    supportedIndex t = true ↔
      (bitWidth t = 8 ∨ bitWidth t = 16 ∨ bitWidth t = 32 ∨ bitWidth t = 64) := by
  cases t <;> decide

lemma isTrivialTransposition_iff {m : List Int} {n : Nat} :
    isTrivialTransposition m n = true ↔ ∀ i, i < n → m.getD i (-1) = (i : Int) := by
  simp [isTrivialTransposition, List.all_eq_true, List.mem_range]

lemma transposeInts_getD (outW : Nat) (src : List Int) (srcOff len : Nat)
    (tmap : List Int) {i : Nat} (hi : i < len) :
    (transposeInts outW src srcOff len tmap).getD i 0 =
      castToWidth outW (mapAt tmap (src.getD (srcOff + i) 0)) := by
  unfold transposeInts
  rw [List.getD_eq_getElem _ _ (by simpa using hi)]
  rw [List.getElem_map]
  rw [List.getElem_range]

end WidthLemmas

/-- C1 (amended): for every successful map-producing `Unify` call, entry `i`
of the returned map is the dense 0-based id the shared interner assigns to
the dictionary value at position `i` (its first index in the canonical
table, so equal values always receive the same id), ids assigned by earlier
calls are preserved and the table only grows at its end (first-seen order);
in particular, unifying the dictionaries ["b","a","c"] then ["a","d"] on a
fresh utf8 unifier yields maps [0,1,2] and [1,3] and a canonical dictionary
containing exactly b,a,c,d in that order. -/
theorem unify_records_interner_ids :
    (∀ (st st' : UnifierState String) (d : InputDict String) (m : List Nat),
        Unify st d true = (st', Except.ok (some m)) →
        (∀ (i : Nat) (hv : i < (d.values.filterMap id).length) (hm : i < m.length),
            memoLookup st'.table ((d.values.filterMap id).get ⟨i, hv⟩) =
              some (m.get ⟨i, hm⟩)) ∧
        (∀ (w : String) (j : Nat),
            memoLookup st.table w = some j → memoLookup st'.table w = some j) ∧
        (∃ u, st'.table = st.table ++ u)) ∧
      Unify (⟨ValType.utf8, []⟩ : UnifierState String)
          ⟨ValType.utf8, [some "b", some "a", some "c"]⟩ true =
        (⟨ValType.utf8, ["b", "a", "c"]⟩, Except.ok (some [0, 1, 2])) ∧
      Unify (⟨ValType.utf8, ["b", "a", "c"]⟩ : UnifierState String)
          ⟨ValType.utf8, [some "a", some "d"]⟩ true =
        (⟨ValType.utf8, ["b", "a", "c", "d"]⟩, Except.ok (some [1, 3])) := by
  refine ⟨?_, by rfl, by rfl⟩
  intro st st' d m h
  unfold Unify at h
  split_ifs at h with h1 h2 h3
  · simp at h
  · simp at h
  · rw [Prod.mk.injEq] at h
    obtain ⟨hst, hm2⟩ := h
    have htab : st'.table = (unifyLoop st.table (d.values.filterMap id)).1 := by
      rw [← hst]
    have hmap : m = (unifyLoop st.table (d.values.filterMap id)).2 := by
      simpa using hm2.symm
    subst hmap
    refine ⟨?_, ?_, ?_⟩
    · intro i hv hm
      rw [htab]
      exact unifyLoop_map_ids st.table (d.values.filterMap id) i hv hm
    · intro w j hj
      rw [htab]
      exact unifyLoop_stable hj _
    · rw [htab]
      exact unifyLoop_extends _ _
  · exact absurd rfl h3

theorem unify_records_interner_ids_witness :
    memoLookup ["b", "a", "c"] "a" = some 1 := by
  have h := unify_records_interner_ids.1 ⟨ValType.utf8, []⟩
      ⟨ValType.utf8, ["b", "a", "c"]⟩
      ⟨ValType.utf8, [some "b", some "a", some "c"]⟩ [0, 1, 2] (by rfl)
  exact h.1 1 (by decide) (by decide)

/-- C1 counterexample: on the code, unifying ["b","a","c"] then ["a","d"]
yields the maps [0,1,2] and [1,3] (the interner assigns b←0, a←1, c←2, d←3
in first-seen order), not the claimed [1,0,2] and [0,3]. -/
theorem unify_round_trip_maps_differ :
    (Unify (⟨ValType.utf8, []⟩ : UnifierState String)
        ⟨ValType.utf8, [some "b", some "a", some "c"]⟩ true).2 =
      Except.ok (some [0, 1, 2]) ∧
    ¬ ([0, 1, 2] : List Nat) = [1, 0, 2] ∧
    (Unify (⟨ValType.utf8, ["b", "a", "c"]⟩ : UnifierState String)
        ⟨ValType.utf8, [some "a", some "d"]⟩ true).2 = Except.ok (some [1, 3]) ∧
    ¬ ([1, 3] : List Nat) = [0, 3] :=
  ⟨rfl, by decide, rfl, by decide⟩

/-- C4 (amended): `GetResult` selects the smallest of {int8, int16, int32,
int64} whose maximum representable value is greater than or equal to the
interner size `n` itself (not `n − 1`); in particular for n = 128 it selects
int16. -/
theorem getResult_selects_smallest_ge_size :
    (∀ (st : UnifierState String),
        st.table.length ≤ signedMax IndexTypeId.i64 →
        st.table.length ≤ signedMax (GetResult st).1 ∧
          ∀ (t : IndexTypeId), supportedIndex t = true →
            st.table.length ≤ signedMax t →
            signedMax (GetResult st).1 ≤ signedMax t) ∧
      selectIndexType 128 = IndexTypeId.i16 := by
  refine ⟨?_, rfl⟩
  intro st h
  exact ⟨selectIndexType_ge h, fun t ht hle => selectIndexType_min ht hle⟩

theorem getResult_selects_smallest_ge_size_witness :
    1 ≤ signedMax (GetResult (⟨ValType.utf8, ["a"]⟩ : UnifierState String)).1 :=
  (getResult_selects_smallest_ge_size.1 ⟨ValType.utf8, ["a"]⟩ (by decide)).1

/-- C4 counterexample: at interner size 128 the code's chained
`dict_length <= max` tests give int16, while the claimed rule
(smallest type with max ≥ n − 1 = 127) gives int8. -/
theorem getResult_boundary_128_not_int8 :
    selectIndexType 128 = IndexTypeId.i16 ∧
      specSelectIndexType 128 = IndexTypeId.i8 ∧
      ¬ IndexTypeId.i16 = IndexTypeId.i8 :=
  ⟨rfl, rfl, by decide⟩

/-- C5: for every interner size `n` an int64 size can take, the index type
`GetResult` selects can represent `n − 1`; in particular size 128 selects
int16, not int8. -/
theorem getResult_width_sufficient :
    (∀ (st : UnifierState String),
        st.table.length ≤ signedMax IndexTypeId.i64 →
        st.table.length - 1 ≤ signedMax (GetResult st).1) ∧
      selectIndexType 128 = IndexTypeId.i16 ∧
      ¬ selectIndexType 128 = IndexTypeId.i8 := by
  refine ⟨?_, rfl, by decide⟩
  intro st h
  exact Nat.le_trans (Nat.sub_le _ _) (selectIndexType_ge h)

theorem getResult_width_sufficient_witness :
    0 ≤ signedMax (GetResult (⟨ValType.utf8, ["a"]⟩ : UnifierState String)).1 :=
  getResult_width_sufficient.1 ⟨ValType.utf8, ["a"]⟩ (by decide)

/-- C7 (amended): `Unify` fails with the `Invalid` status kind both when the
dictionary contains a null value and when its value type differs from the
unifier's declared type (the two failures differ only in their message, not
in their status kind); in all other cases it succeeds. -/
theorem unify_error_kinds :
    (∀ (st : UnifierState String) (d : InputDict String) (w : Bool),
        0 < dictNullCount d → (Unify st d w).2 = .error .invalid) ∧
    (∀ (st : UnifierState String) (d : InputDict String) (w : Bool),
        dictNullCount d = 0 → d.dtype ≠ st.valueType →
        (Unify st d w).2 = .error .invalid) ∧
    (∀ (st : UnifierState String) (d : InputDict String) (w : Bool),
        dictNullCount d = 0 → d.dtype = st.valueType →
        ∃ r, (Unify st d w).2 = .ok r) := by
  refine ⟨?_, ?_, ?_⟩
  · intro st d w h
    simp [Unify, h]
  · intro st d w h1 h2
    simp [Unify, h1, h2]
  · intro st d w h1 h2
    refine ⟨if w then some (unifyLoop st.table (d.values.filterMap id)).2 else none, ?_⟩
    simp [Unify, h1, h2]

theorem unify_error_kinds_witness :
    (Unify (⟨ValType.utf8, []⟩ : UnifierState String)
        ⟨ValType.utf8, [none]⟩ true).2 = .error .invalid ∧
    (Unify (⟨ValType.utf8, []⟩ : UnifierState String)
        ⟨ValType.int32V, [some "x"]⟩ true).2 = .error .invalid :=
  ⟨unify_error_kinds.1 _ _ _ (by decide),
    unify_error_kinds.2.1 _ _ _ (by decide) (by decide)⟩

/-- C7 counterexample: the type-mismatch failure carries the same status
kind (`Status::Invalid`, line 62) as the null-value failure (line 59) — not
a kind distinct from it. -/
theorem unify_type_mismatch_not_distinct_kind :
    (Unify (⟨ValType.utf8, []⟩ : UnifierState String)
        ⟨ValType.int32V, [some "x"]⟩ true).2 = .error .invalid ∧
    (Unify (⟨ValType.utf8, []⟩ : UnifierState String)
        ⟨ValType.utf8, [none]⟩ true).2 = .error .invalid ∧
    ¬ ErrKind.invalid = ErrKind.typeError :=
  ⟨rfl, rfl, by decide⟩

/-- C9: every erroring `Unify` call returns the interner exactly as it was
before the call — both failing checks precede any `GetOrInsert`, so no value
of the failing dictionary is inserted, and values interned by earlier
successful calls remain in the table. -/
theorem unify_error_preserves_state :
    ∀ (st : UnifierState String) (d : InputDict String) (w : Bool) (e : ErrKind),
      (Unify st d w).2 = .error e → (Unify st d w).1 = st := by
  intro st d w e h
  unfold Unify at h ⊢
  split_ifs at h ⊢
  · rfl
  · rfl

theorem unify_error_preserves_state_witness :
    (Unify (⟨ValType.utf8, ["q"]⟩ : UnifierState String)
        ⟨ValType.utf8, [none]⟩ true).1 = ⟨ValType.utf8, ["q"]⟩ :=
  unify_error_preserves_state ⟨ValType.utf8, ["q"]⟩ ⟨ValType.utf8, [none]⟩ true
    ErrKind.invalid (by rfl)

/-- C2: on the general (non-trivial) path of `Transpose`, the produced
indices buffer is fresh and holds, at every non-null logical position `i`,
the transpose-map image of the source index read at slice position
`offset + i`, cast to the target width; the null bitmap is a fresh copy
re-aligned to bit 0 when the source offset is non-zero and the source's
own buffer reference when the offset is zero; and the produced array is
null at exactly the positions where the source is null. -/
theorem transpose_general_path (src : DictArrayData) (outT : IndexTypeId)
    (tmap : List Int) (a : TransposedArray)
    (hok : Transpose src (.dict outT) tmap = .ok a)
    (hgen : ¬(src.indexType = outT ∧ isTrivialTransposition tmap src.dictLen = true)) :
    (∃ l, a.indices = .fresh l ∧
        ∀ (i : Nat), i < src.length → validAt src.nullBitmap src.offset i = true →
          l.getD i 0 =
            castToWidth (bitWidth outT) (mapAt tmap (src.indices.getD (src.offset + i) 0))) ∧
    (src.offset = 0 → a.bitmap = .reused) ∧
    (src.offset ≠ 0 → ∃ b, a.bitmap = .fresh b) ∧
    (∀ (i : Nat), i < src.length →
        validAt (outBitmap src a) a.offset i = validAt src.nullBitmap src.offset i) := by
  simp only [Transpose] at hok
  rw [if_neg hgen] at hok
  cases hbm : shiftedBitmap src with
  | none =>
    simp only [hbm] at hok
    exact TransposeOutcome.noConfusion hok
  | some bm =>
    simp only [hbm] at hok
    by_cases hsup : supportedIndex src.indexType && supportedIndex outT
    · rw [if_pos hsup] at hok
      have ha : a = ⟨.dict outT, src.length, 0, src.nullCount, bm,
          .fresh (transposeInts (bitWidth outT) src.indices src.offset src.length tmap)⟩ := by
        have := hok
        injection this with h
        exact h.symm
      subst ha
      refine ⟨⟨_, rfl, ?_⟩, ?_, ?_, ?_⟩
      · intro i hi _
        exact transposeInts_getD (bitWidth outT) src.indices src.offset src.length tmap hi
      · intro hoff
        unfold shiftedBitmap at hbm
        rw [if_neg (by simpa using hoff)] at hbm
        injection hbm with h
        simp [← h]
      · intro hoff
        unfold shiftedBitmap at hbm
        rw [if_pos hoff] at hbm
        cases hcb : copyBitmap src.nullBitmap src.offset src.length with
        | none => rw [hcb] at hbm; simp at hbm
        | some b =>
          rw [hcb] at hbm
          injection hbm with h
          exact ⟨b, by simp [← h]⟩
      · intro i hi
        by_cases hoff : src.offset = 0
        · unfold shiftedBitmap at hbm
          rw [if_neg (by simpa using hoff)] at hbm
          injection hbm with h
          simp [outBitmap, ← h, validAt, hoff]
        · unfold shiftedBitmap at hbm
          rw [if_pos hoff] at hbm
          cases hnb : src.nullBitmap with
          | none =>
            rw [hnb] at hbm
            unfold copyBitmap at hbm
            by_cases hl : src.length = 0
            · omega
            · rw [if_neg hl] at hbm; simp at hbm
          | some bits =>
            rw [hnb] at hbm
            unfold copyBitmap at hbm
            injection hbm with h
            rw [← h]
            simp only [outBitmap, validAt]
            rw [Nat.zero_add, List.getD_eq_getElem _ _ (by simpa using hi)]
            rw [List.getElem_map]
            rw [List.getElem_range]
    · rw [if_neg hsup] at hok
      simp at hok

theorem transpose_general_path_witness :
    (∃ l, (TransposedArray.mk (DTypeT.dict IndexTypeId.i16) 1 0 0 BufRef.reused
        (BufRef.fresh [5])).indices = .fresh l ∧
      ∀ (i : Nat), i < 1 → validAt none 0 i = true →
        l.getD i 0 = castToWidth (bitWidth IndexTypeId.i16)
          (mapAt [5] (List.getD [(0 : Int)] (0 + i) 0))) := by
  have h := transpose_general_path ⟨IndexTypeId.i8, 1, 0, none, [0], 0, 1⟩
      IndexTypeId.i16 [5]
      ⟨DTypeT.dict IndexTypeId.i16, 1, 0, 0, BufRef.reused, BufRef.fresh [5]⟩
      (by rfl) (by decide)
  exact h.1

/-- C3: when the source and target index widths agree (widths determine the
index type here, mirroring the code's type-id comparison) and the transpose
map is the identity on the source dictionary, `Transpose` reuses the
null-bitmap and indices buffers verbatim and preserves length, offset and
null count, changing only the type tag (and attached dictionary). -/
theorem transpose_trivial_reuses_buffers (src : DictArrayData) (outT : IndexTypeId)
    (tmap : List Int)
    (hw : bitWidth src.indexType = bitWidth outT)
    (hid : ∀ (i : Nat), i < src.dictLen → tmap.getD i (-1) = (i : Int)) :
    Transpose src (.dict outT) tmap =
      .ok ⟨.dict outT, src.length, src.offset, src.nullCount, .reused, .reused⟩ := by
  have hty : src.indexType = outT := bitWidth_inj hw
  have htr : isTrivialTransposition tmap src.dictLen = true :=
    isTrivialTransposition_iff.mpr hid
  simp only [Transpose]
  rw [if_pos ⟨hty, htr⟩]

theorem transpose_trivial_reuses_buffers_witness :
    Transpose ⟨IndexTypeId.i8, 2, 3, some [true, false, true, true, false],
        [7, 7, 7, 0, 1], 1, 2⟩ (DTypeT.dict IndexTypeId.i8) [0, 1] =
      .ok ⟨DTypeT.dict IndexTypeId.i8, 2, 3, 1, BufRef.reused, BufRef.reused⟩ :=
  transpose_trivial_reuses_buffers _ _ _ (by decide) (by decide)

/-- C6: the byte size the general path of `Transpose` passes to the
allocator is `length * bit_width * CHAR_BIT` — at length 1 and an int8
target it requests 64 bytes, where the specified size of
`length * out_width` bits is 1 byte. -/
theorem transpose_alloc_request_eval :
    transposeAllocBytes 1 IndexTypeId.i8 = 64 ∧
      1 * bitWidth IndexTypeId.i8 / 8 = 1 ∧ ¬ (64 : Nat) = 1 := by
  decide

/-- C8 (amended): `Transpose` fails with `TypeError` whenever the target
type is not a dictionary-family type; and whenever either index width lies
outside {8, 16, 32, 64} it fails with `NotImplemented` — except on the fast
path, i.e. unless the two index types are equal and the map is a trivial
transposition, since that path returns before any width validation (the
bitmap-copy step is assumed well-defined: non-zero offset requires a
present bitmap or zero length). -/
theorem transpose_error_conditions :
    (∀ (src : DictArrayData) (tmap : List Int),
        Transpose src DTypeT.nonDict tmap = .err .typeError) ∧
    (∀ (src : DictArrayData) (outT : IndexTypeId) (tmap : List Int),
        (¬(bitWidth src.indexType = 8 ∨ bitWidth src.indexType = 16 ∨
            bitWidth src.indexType = 32 ∨ bitWidth src.indexType = 64) ∨
         ¬(bitWidth outT = 8 ∨ bitWidth outT = 16 ∨
            bitWidth outT = 32 ∨ bitWidth outT = 64)) →
        ¬(src.indexType = outT ∧ isTrivialTransposition tmap src.dictLen = true) →
        (src.offset ≠ 0 → ¬ src.nullBitmap = none ∨ src.length = 0) →
        Transpose src (DTypeT.dict outT) tmap = .err .notImplemented) := by
  constructor
  · intro src tmap
    rfl
  · intro src outT tmap hw hfast hwf
    simp only [Transpose]
    rw [if_neg hfast]
    have hbm : ∃ bm, shiftedBitmap src = some bm := by
      unfold shiftedBitmap
      by_cases hoff : src.offset ≠ 0
      · rw [if_pos hoff]
        cases hnb : src.nullBitmap with
        | some bits => exact ⟨_, rfl⟩
        | none =>
          rcases hwf hoff with h | h
          · exact absurd hnb h
          · refine ⟨BufRef.fresh [], ?_⟩
            rw [h]
            simp [copyBitmap]
      · rw [if_neg hoff]
        exact ⟨_, rfl⟩
    obtain ⟨bm, hbm⟩ := hbm
    simp only [hbm]
    have hsup : (supportedIndex src.indexType && supportedIndex outT) = false := by
      rcases hw with h | h
      · have : supportedIndex src.indexType = false := by
          cases hs : supportedIndex src.indexType
          · rfl
          · exact absurd (supportedIndex_iff_width.mp hs) h
        simp [this]
      · have : supportedIndex outT = false := by
          cases hs : supportedIndex outT
          · rfl
          · exact absurd (supportedIndex_iff_width.mp hs) h
        simp [this]
    rw [if_neg (by simp [hsup])]

theorem transpose_error_conditions_witness :
    Transpose ⟨IndexTypeId.i8, 0, 0, none, [], 0, 0⟩ DTypeT.nonDict [] =
        .err .typeError ∧
      Transpose ⟨IndexTypeId.i8, 0, 0, none, [], 0, 0⟩
          (DTypeT.dict IndexTypeId.other1) [] = .err .notImplemented :=
  ⟨transpose_error_conditions.1 _ _,
    transpose_error_conditions.2 _ IndexTypeId.other1 [] (by decide) (by decide)
      (by decide)⟩

/-- C8 counterexample: a source whose index type has bit width 1 (outside
{8, 16, 32, 64}), transposed to the same index type with a trivially
identical map (an empty dictionary), takes the fast path and succeeds with
reused buffers instead of failing with NotImplemented. -/
theorem transpose_unsupported_width_fast_path_succeeds :
    Transpose ⟨IndexTypeId.other1, 0, 0, none, [], 0, 0⟩
        (DTypeT.dict IndexTypeId.other1) [] =
      .ok ⟨DTypeT.dict IndexTypeId.other1, 0, 0, 0, BufRef.reused, BufRef.reused⟩ ∧
    ¬ (bitWidth IndexTypeId.other1 = 8 ∨ bitWidth IndexTypeId.other1 = 16 ∨
        bitWidth IndexTypeId.other1 = 32 ∨ bitWidth IndexTypeId.other1 = 64) := by
  decide

/-- C10: on the general path with a non-zero slice offset, `Transpose`
passes the raw null-bitmap pointer to the bitmap-copy routine
unconditionally; if the source carries no null bitmap and has at least one
element, that copy reads through a null pointer (modelled as the `undef`
outcome). -/
theorem transpose_null_bitmap_deref (src : DictArrayData) (outT : IndexTypeId)
    (tmap : List Int)
    (hoff : src.offset ≠ 0) (hnb : src.nullBitmap = none) (hlen : 0 < src.length)
    (hgen : ¬(src.indexType = outT ∧ isTrivialTransposition tmap src.dictLen = true)) :
    Transpose src (.dict outT) tmap = .undef := by
  simp only [Transpose]
  rw [if_neg hgen]
  have hbm : shiftedBitmap src = none := by
    unfold shiftedBitmap
    rw [if_pos hoff, hnb]
    unfold copyBitmap
    rw [if_neg (by omega)]
    rfl
  rw [hbm]

theorem transpose_null_bitmap_deref_witness :
    Transpose ⟨IndexTypeId.i8, 1, 1, none, [0, 0], 0, 1⟩
        (DTypeT.dict IndexTypeId.i16) [0] = .undef :=
  transpose_null_bitmap_deref ⟨IndexTypeId.i8, 1, 1, none, [0, 0], 0, 1⟩
    IndexTypeId.i16 [0] (by decide) rfl (by decide) (by decide)

end ArrowDict
